import Mathlib

/-!
Shallow embedding of `src/post-processing.py` (Autodesk VRED post-processing
volume controller) together with proofs of the specification's claims.

Modelling conventions:
* Python floats are modelled as exact rationals (`ℚ`); the spec's numeric
  scenarios (0 → 1.0 → 1.9 → 2.71 …) are exact decimal arithmetic.
* Host-provided scene data (volumes, metadata sets, camera) is passed in
  explicitly: the camera position and the current exposure/saturation are
  per-tick inputs, the updated values are per-tick outputs.
* Each `print` call of the source is modelled as one emitted log line.
-/

/-- A world-space position or bounding-box corner (the host's 3d vector). -/
structure Vec3 where
  x : ℚ
  y : ℚ
  z : ℚ
deriving DecidableEq

/-- An axis-aligned bounding box, as returned by `getBoundingBox()`. -/
structure BoundingBox where
  boxMin : Vec3
  boxMax : Vec3
deriving DecidableEq

/-- A scene node tagged `postProcessingVolume`: its name and its bounding box. -/
structure PostProcessingVolume where
  name : String
  boundingBox : BoundingBox
deriving DecidableEq

/-- A `PostProcessing*` metadata set: the two values the source reads from it
via `getValue("camera:exposure")` and `getValue("camera:saturation")`. -/
structure PostProcessingEffect where
  exposure : ℚ
  saturation : ℚ
deriving DecidableEq

/-- The data captured once in `__init__`: the registered volumes, the
name-to-effect mapping, and `originalCameraParameters`. -/
structure ControllerConfig where
  postProcessingVolumes : List PostProcessingVolume
  postProcessingEffectMapping : List (String × PostProcessingEffect)
  originalExposure : ℚ
  originalSaturation : ℚ

/-- The controller's mutable per-session state: the two target values and
`lastActiveProcessingVolume`. -/
structure ControllerState where
  exposureTarget : ℚ
  saturationTarget : ℚ
  lastActiveProcessingVolume : Option PostProcessingVolume
deriving DecidableEq

/-- Dictionary lookup `postProcessingEffectMapping[name]`, as an option. -/
def lookupEffect (mapping : List (String × PostProcessingEffect)) (name : String) :
    Option PostProcessingEffect :=
  (mapping.find? (fun entry => entry.1 == name)).map Prod.snd

/-- `isCameraInsideBoundingBox`: strict comparison on each of the three axes
(`min.x() < pos.x() < max.x()` and likewise for y and z). -/
def isCameraInsideBoundingBox (cameraPosition : Vec3) (boundingBox : BoundingBox) : Bool :=
  let isInsideX := decide (boundingBox.boxMin.x < cameraPosition.x) &&
    decide (cameraPosition.x < boundingBox.boxMax.x)
  let isInsideY := decide (boundingBox.boxMin.y < cameraPosition.y) &&
    decide (cameraPosition.y < boundingBox.boxMax.y)
  let isInsideZ := decide (boundingBox.boxMin.z < cameraPosition.z) &&
    decide (cameraPosition.z < boundingBox.boxMax.z)
  isInsideX && isInsideY && isInsideZ

/-- The containment scan of `loop`: `activeProcessingVolume` starts as `None`
and is overwritten by every volume that contains the camera, so the last
containing volume in registration order wins. -/
def findActiveVolume (volumes : List PostProcessingVolume) (cameraPosition : Vec3) :
    Option PostProcessingVolume :=
  volumes.foldl
    (fun activeProcessingVolume postProcessingVolume =>
      if isCameraInsideBoundingBox cameraPosition postProcessingVolume.boundingBox then
        some postProcessingVolume
      else
        activeProcessingVolume)
    none

/-- `setPostProcessingEffects`: print the entry message, then, if the volume's
name is in the effect mapping, set both targets from the metadata set. -/
def setPostProcessingEffects (cfg : ControllerConfig) (postProcessingVolume : PostProcessingVolume)
    (s : ControllerState) : ControllerState × List String :=
  let log := ["Camera entered post processing volume: " ++ postProcessingVolume.name]
  match lookupEffect cfg.postProcessingEffectMapping postProcessingVolume.name with
  | some effect =>
      ({ s with exposureTarget := effect.exposure, saturationTarget := effect.saturation }, log)
  | none => (s, log)

/-- `resetPostProcessingEffects`: print the exit message and reset both targets
to `originalCameraParameters`. -/
def resetPostProcessingEffects (cfg : ControllerConfig) (s : ControllerState) :
    ControllerState × List String :=
  ({ s with exposureTarget := cfg.originalExposure,
            saturationTarget := cfg.originalSaturation },
   ["Camera left post processing volume"])

/-- Python's built-in `abs`, written out so that it evaluates by reduction. -/
def pyAbs (x : ℚ) : ℚ :=
  if x < 0 then -x else x

/-- One parameter's update inside `smoothCameraParameterUpdate`:
`diff = abs(target - current); if diff > 0.1: current += (target - current) * 0.1`. -/
def smoothParameterStep (target current : ℚ) : ℚ :=
  if pyAbs (target - current) > 1 / 10 then current + (target - current) * (1 / 10) else current

/-- `smoothCameraParameterUpdate`: apply the blend step to exposure and to
saturation independently, returning the new camera values. -/
def smoothCameraParameterUpdate (s : ControllerState) (currentExposure currentSaturation : ℚ) :
    ℚ × ℚ :=
  (smoothParameterStep s.exposureTarget currentExposure,
   smoothParameterStep s.saturationTarget currentSaturation)

/-- The result of one `loop` invocation: the new controller state, the new
camera exposure and saturation, and the log lines printed during the tick. -/
structure TickResult where
  state : ControllerState
  exposure : ℚ
  saturation : ℚ
  log : List String
deriving DecidableEq

/-- `loop`: if active, scan the volumes, fire the enter/exit handler when the
active volume changed, store the new active volume; in every case run
`smoothCameraParameterUpdate` at the end. -/
def loop (cfg : ControllerConfig) (isActive : Bool) (cameraPosition : Vec3)
    (s : ControllerState) (currentExposure currentSaturation : ℚ) : TickResult :=
  let stateAndLog :=
    if isActive then
      let activeProcessingVolume := findActiveVolume cfg.postProcessingVolumes cameraPosition
      let fired :=
        if s.lastActiveProcessingVolume = activeProcessingVolume then
          (s, ([] : List String))
        else
          match activeProcessingVolume with
          | some v => setPostProcessingEffects cfg v s
          | none => resetPostProcessingEffects cfg s
      ({ fired.1 with lastActiveProcessingVolume := activeProcessingVolume }, fired.2)
    else
      (s, ([] : List String))
  let blended := smoothCameraParameterUpdate stateAndLog.1 currentExposure currentSaturation
  ⟨stateAndLog.1, blended.1, blended.2, stateAndLog.2⟩

/-- The state built in `__init__`: both targets start at the captured original
camera parameters and no volume is active. -/
def initialState (cfg : ControllerConfig) : ControllerState :=
  ⟨cfg.originalExposure, cfg.originalSaturation, none⟩

/-- Run `loop` (with the controller active) over a sequence of camera
positions, threading the state and the camera values and concatenating logs. -/
def runLoop (cfg : ControllerConfig) (s : ControllerState)
    (currentExposure currentSaturation : ℚ) : List Vec3 → TickResult
  | [] => ⟨s, currentExposure, currentSaturation, []⟩
  | p :: ps =>
      let r := loop cfg true p s currentExposure currentSaturation
      let rest := runLoop cfg r.state r.exposure r.saturation ps
      ⟨rest.state, rest.exposure, rest.saturation, r.log ++ rest.log⟩

/-- The log line printed when the transition handler for a new active volume
(or for no volume) fires. -/
def transitionLog : Option PostProcessingVolume → List String
  | some v => ["Camera entered post processing volume: " ++ v.name]
  | none => ["Camera left post processing volume"]

/-- The blend sequence of the spec's convergence scenario: start at 0, target
10, iterate the per-tick step. -/
def blendSequence (n : ℕ) : ℚ :=
  (fun c => smoothParameterStep 10 c)^[n] 0

/-- Demo trigger volume named "A", the unit box at the origin. -/
def volA : PostProcessingVolume := ⟨"A", ⟨⟨0, 0, 0⟩, ⟨1, 1, 1⟩⟩⟩

/-- Demo trigger volume named "B", a unit box disjoint from `volA`. -/
def volB : PostProcessingVolume := ⟨"B", ⟨⟨2, 0, 0⟩, ⟨3, 1, 1⟩⟩⟩

/-- Demo configuration: both volumes registered, but only "A" has an attached
effect metadata set; baseline exposure and saturation are 1. -/
def demoConfig : ControllerConfig := ⟨[volA, volB], [("A", ⟨2, 3⟩)], 1, 1⟩

/-- A camera position strictly inside `volA` and outside `volB`. -/
def insideA : Vec3 := ⟨1/2, 1/2, 1/2⟩

/-- A camera position strictly inside `volB` and outside `volA`. -/
def insideB : Vec3 := ⟨5/2, 1/2, 1/2⟩

/-- A camera position outside both demo volumes. -/
def outsideAll : Vec3 := ⟨5, 5, 5⟩

/-- The embedded `pyAbs` agrees with the absolute value. -/
theorem pyAbs_eq_abs (x : ℚ) : pyAbs x = |x| := by
  rw [pyAbs]
  by_cases h : x < 0
  · rw [if_pos h, abs_of_neg h]
  · rw [if_neg h, abs_of_nonneg (not_lt.mp h)]

/-- The blend step written with the mathematical absolute value. -/
theorem smoothParameterStep_eq (target current : ℚ) :
    smoothParameterStep target current =
      if |target - current| > 1 / 10 then current + (target - current) * (1 / 10)
      else current := by
  rw [smoothParameterStep, pyAbs_eq_abs]

/-- Once the difference is within epsilon, the step leaves the value unchanged. -/
theorem smoothParameterStep_fixed {target current : ℚ}
    (h : |target - current| ≤ 1 / 10) : smoothParameterStep target current = current := by
  rw [smoothParameterStep_eq]
  exact if_neg (not_lt.mpr h)

/-- Once the difference is within epsilon, iterating the step any number of
times leaves the value unchanged. -/
theorem smoothParameterStep_iterate_fixed {target current : ℚ}
    (h : |target - current| ≤ 1 / 10) (n : ℕ) :
    (fun c => smoothParameterStep target c)^[n] current = current := by
  induction n with
  | zero => rfl
  | succ n ih =>
      rw [Function.iterate_succ_apply', ih]
      exact smoothParameterStep_fixed h

/-- C1: the per-tick blend step follows the exponential-smoothing rule for each
parameter independently (update by a factor `0.1` of the remaining difference
when `abs(target - current) > 0.1`, no change otherwise), and once the
difference is within `0.1` any number of repeated steps leaves the current
value unchanged. -/
theorem blend_step_rule (target current : ℚ) :
    (|target - current| > 1 / 10 →
      smoothParameterStep target current = current + (target - current) * (1 / 10)) ∧
    (|target - current| ≤ 1 / 10 → smoothParameterStep target current = current) ∧
    (|target - current| ≤ 1 / 10 →
      ∀ n, (fun c => smoothParameterStep target c)^[n] current = current) ∧
    (∀ (s : ControllerState) (e u : ℚ),
      smoothCameraParameterUpdate s e u =
        (smoothParameterStep s.exposureTarget e, smoothParameterStep s.saturationTarget u)) := by
  refine ⟨fun h => by rw [smoothParameterStep_eq]; exact if_pos h,
    fun h => smoothParameterStep_fixed h,
    fun h n => smoothParameterStep_iterate_fixed h n, fun s e u => rfl⟩

/-- Closed instance of `blend_step_rule`: one step from 0 toward 10, and a
value within epsilon of its target left unchanged by five further steps. -/
theorem blend_step_rule_witness :
    smoothParameterStep 10 0 = 0 + (10 - 0) * (1 / 10) ∧
    smoothParameterStep 10 (199 / 20) = 199 / 20 ∧
    (fun c => smoothParameterStep 10 c)^[5] (199 / 20) = 199 / 20 :=
  ⟨(blend_step_rule 10 0).1 (by norm_num),
   (blend_step_rule 10 (199 / 20)).2.1 (by rw [abs_le]; norm_num),
   (blend_step_rule 10 (199 / 20)).2.2.1 (by rw [abs_le]; norm_num) 5⟩

/-- C2: the containment test is true exactly when the point is strictly
between the box bounds on all three axes, and a point equal to any single
bound (a point on a face) is never inside. -/
theorem contains_iff_strictly_between (boundingBox : BoundingBox) (p : Vec3) :
    (isCameraInsideBoundingBox p boundingBox = true ↔
      (boundingBox.boxMin.x < p.x ∧ p.x < boundingBox.boxMax.x) ∧
      (boundingBox.boxMin.y < p.y ∧ p.y < boundingBox.boxMax.y) ∧
      (boundingBox.boxMin.z < p.z ∧ p.z < boundingBox.boxMax.z)) ∧
    ((p.x = boundingBox.boxMin.x ∨ p.x = boundingBox.boxMax.x ∨
      p.y = boundingBox.boxMin.y ∨ p.y = boundingBox.boxMax.y ∨
      p.z = boundingBox.boxMin.z ∨ p.z = boundingBox.boxMax.z) →
      isCameraInsideBoundingBox p boundingBox = false) := by
  constructor
  · simp [isCameraInsideBoundingBox, and_assoc]
  · intro h
    rcases h with h | h | h | h | h | h <;>
      simp [isCameraInsideBoundingBox, h]

/-- Closed instance of `contains_iff_strictly_between`: a point on the x-min
face of the unit box is not inside. -/
theorem contains_iff_strictly_between_witness :
    isCameraInsideBoundingBox ⟨0, 1/2, 1/2⟩ ⟨⟨0, 0, 0⟩, ⟨1, 1, 1⟩⟩ = false :=
  (contains_iff_strictly_between ⟨⟨0, 0, 0⟩, ⟨1, 1, 1⟩⟩ ⟨0, 1/2, 1/2⟩).2 (Or.inl rfl)

/-- C3: the containment scan returns the last registered volume whose box
contains the camera position, and returns none on an empty volume list. -/
theorem findActiveVolume_last_wins (volumes : List PostProcessingVolume) (p : Vec3) :
    findActiveVolume volumes p =
      (volumes.filter (fun v => isCameraInsideBoundingBox p v.boundingBox)).getLast? ∧
    findActiveVolume [] p = none := by
  refine ⟨?_, rfl⟩
  induction volumes using List.reverseRecOn with
  | nil => rfl
  | append_singleton l v ih =>
      rw [findActiveVolume, List.foldl_append, List.filter_append]
      by_cases h : isCameraInsideBoundingBox p v.boundingBox
      · simp [h, List.getLast?_concat]
      · simpa [h] using ih

/-- C4: on an entry transition, the controller sets the targets of exactly the
parameters carried by the entered volume's effect mapping: when the volume's
name is mapped, both mapped values (exposure and saturation) become the new
targets; when the volume carries no mapping, every parameter keeps its prior
target. -/
theorem entry_sets_only_mapped_targets (cfg : ControllerConfig) (s : ControllerState)
    (p : Vec3) (e u : ℚ) (v : PostProcessingVolume)
    (hc : findActiveVolume cfg.postProcessingVolumes p = some v)
    (hne : s.lastActiveProcessingVolume ≠ some v) :
    (∀ effect, lookupEffect cfg.postProcessingEffectMapping v.name = some effect →
      (loop cfg true p s e u).state.exposureTarget = effect.exposure ∧
      (loop cfg true p s e u).state.saturationTarget = effect.saturation) ∧
    (lookupEffect cfg.postProcessingEffectMapping v.name = none →
      (loop cfg true p s e u).state.exposureTarget = s.exposureTarget ∧
      (loop cfg true p s e u).state.saturationTarget = s.saturationTarget) := by
  constructor
  · intro effect heff
    simp [loop, hc, hne, setPostProcessingEffects, heff]
  · intro hnone
    simp [loop, hc, hne, setPostProcessingEffects, hnone]

/-- Closed instance of `entry_sets_only_mapped_targets`: entering the demo
volume "A" installs its mapped exposure 2 and saturation 3. -/
theorem entry_sets_only_mapped_targets_witness :
    (loop demoConfig true insideA (initialState demoConfig) 1 1).state.exposureTarget = 2 ∧
    (loop demoConfig true insideA (initialState demoConfig) 1 1).state.saturationTarget = 3 :=
  (entry_sets_only_mapped_targets demoConfig (initialState demoConfig) insideA 1 1 volA
    (by with_unfolding_all decide) (by with_unfolding_all decide)).1
    ⟨2, 3⟩ (by with_unfolding_all decide)

/-- C5: on an exit transition, the controller resets the targets of all
tracked parameters (both exposure and saturation) to the baseline captured at
startup, whatever the previously active volume's mapping contained. -/
theorem exit_resets_all_parameters (cfg : ControllerConfig) (s : ControllerState)
    (p : Vec3) (e u : ℚ)
    (hc : findActiveVolume cfg.postProcessingVolumes p = none)
    (hne : s.lastActiveProcessingVolume ≠ none) :
    (loop cfg true p s e u).state.exposureTarget = cfg.originalExposure ∧
    (loop cfg true p s e u).state.saturationTarget = cfg.originalSaturation := by
  simp [loop, hc, hne, resetPostProcessingEffects]

/-- Closed instance of `exit_resets_all_parameters`: stepping outside both
demo volumes from inside "A" resets both targets to the baseline 1. -/
theorem exit_resets_all_parameters_witness :
    (loop demoConfig true outsideAll ⟨2, 3, some volA⟩ 1 1).state.exposureTarget = 1 ∧
    (loop demoConfig true outsideAll ⟨2, 3, some volA⟩ 1 1).state.saturationTarget = 1 :=
  exit_resets_all_parameters demoConfig ⟨2, 3, some volA⟩ outsideAll 1 1
    (by with_unfolding_all decide) (by with_unfolding_all decide)

/-- C6: entering a registered volume whose name has no effect mapping keeps
both targets at their prior values and emits only the informational entry log
line. -/
theorem missing_mapping_keeps_targets (cfg : ControllerConfig) (s : ControllerState)
    (p : Vec3) (e u : ℚ) (v : PostProcessingVolume)
    (hc : findActiveVolume cfg.postProcessingVolumes p = some v)
    (hne : s.lastActiveProcessingVolume ≠ some v)
    (hnone : lookupEffect cfg.postProcessingEffectMapping v.name = none) :
    (loop cfg true p s e u).state.exposureTarget = s.exposureTarget ∧
    (loop cfg true p s e u).state.saturationTarget = s.saturationTarget ∧
    (loop cfg true p s e u).log =
      ["Camera entered post processing volume: " ++ v.name] := by
  refine ⟨?_, ?_, ?_⟩ <;> simp [loop, hc, hne, setPostProcessingEffects, hnone]

/-- Closed instance of `missing_mapping_keeps_targets`: the demo volume "B"
has no effect mapping, so entering it changes no target. -/
theorem missing_mapping_keeps_targets_witness :
    (loop demoConfig true insideB (initialState demoConfig) 1 1).state.exposureTarget = 1 ∧
    (loop demoConfig true insideB (initialState demoConfig) 1 1).state.saturationTarget = 1 ∧
    (loop demoConfig true insideB (initialState demoConfig) 1 1).log =
      ["Camera entered post processing volume: " ++ volB.name] :=
  missing_mapping_keeps_targets demoConfig (initialState demoConfig) insideB 1 1 volB
    (by with_unfolding_all decide) (by with_unfolding_all decide)
    (by with_unfolding_all decide)

/-- C7: when the controller is inactive, a tick leaves the targets and the
stored last active volume untouched and evaluates no volume, yet still runs
the blend step, so the camera values keep moving toward the frozen targets. -/
theorem inactive_tick_freezes_state_but_blends (cfg : ControllerConfig)
    (p : Vec3) (s : ControllerState) (e u : ℚ) :
    loop cfg false p s e u =
      ⟨s, smoothParameterStep s.exposureTarget e, smoothParameterStep s.saturationTarget u,
        []⟩ := rfl

/-- A current value at or below its target never overshoots the target. -/
theorem smoothParameterStep_le {target current : ℚ} (h : current ≤ target) :
    smoothParameterStep target current ≤ target := by
  rw [smoothParameterStep_eq]
  split
  · linarith
  · exact h

/-- A current value at or below its target never moves backwards. -/
theorem smoothParameterStep_ge {target current : ℚ} (h : current ≤ target) :
    current ≤ smoothParameterStep target current := by
  rw [smoothParameterStep_eq]
  split
  · linarith
  · exact le_refl current

/-- Unfolding one tick of the convergence scenario's sequence. -/
theorem blendSequence_succ (n : ℕ) :
    blendSequence (n + 1) = smoothParameterStep 10 (blendSequence n) :=
  Function.iterate_succ_apply' (fun c => smoothParameterStep 10 c) n 0

/-- The convergence scenario's sequence never exceeds its target 10. -/
theorem blendSequence_le (n : ℕ) : blendSequence n ≤ 10 := by
  induction n with
  | zero => norm_num [blendSequence]
  | succ n ih =>
      rw [blendSequence_succ]
      exact smoothParameterStep_le ih

/-- C8: in the scenario current 0, target 10, the blend sequence starts
0, 1.0, 1.9, 2.71, increases monotonically, never overshoots 10, strictly
shrinks the remaining difference on every tick while that difference exceeds
0.1, and stays constant forever once the difference is at or below 0.1. -/
theorem convergence_from_zero_to_ten :
    (blendSequence 0 = 0 ∧ blendSequence 1 = 1 ∧ blendSequence 2 = 19/10 ∧
      blendSequence 3 = 271/100) ∧
    (∀ n, blendSequence n ≤ blendSequence (n + 1)) ∧
    (∀ n, blendSequence n ≤ 10) ∧
    (∀ n, |10 - blendSequence n| > 1/10 →
      |10 - blendSequence (n + 1)| < |10 - blendSequence n|) ∧
    (∀ n k, |10 - blendSequence n| ≤ 1/10 → blendSequence (n + k) = blendSequence n) := by
  refine ⟨by with_unfolding_all decide, ?_, blendSequence_le, ?_, ?_⟩
  · intro n
    rw [blendSequence_succ]
    exact smoothParameterStep_ge (blendSequence_le n)
  · intro n h
    have hb := blendSequence_le n
    have habs : |10 - blendSequence n| = 10 - blendSequence n := abs_of_nonneg (by linarith)
    rw [habs] at h
    have hstep : blendSequence (n + 1) =
        blendSequence n + (10 - blendSequence n) * (1 / 10) := by
      rw [blendSequence_succ, smoothParameterStep_eq, if_pos]
      rw [abs_of_nonneg (by linarith : (0 : ℚ) ≤ 10 - blendSequence n)]
      exact h
    rw [habs, hstep, abs_of_nonneg (by linarith : (0 : ℚ) ≤
      10 - (blendSequence n + (10 - blendSequence n) * (1 / 10)))]
    linarith
  · intro n k h
    induction k with
    | zero => rfl
    | succ k ih =>
        rw [show n + (k + 1) = (n + k) + 1 from rfl, blendSequence_succ, ih]
        exact smoothParameterStep_fixed h

set_option maxRecDepth 100000 in
/-- Closed instance of `convergence_from_zero_to_ten`: the first tick strictly
shrinks the difference, and after tick 44 (where the difference first drops to
or below 0.1) seven further ticks change nothing. -/
theorem convergence_from_zero_to_ten_witness :
    |10 - blendSequence 1| < |10 - blendSequence 0| ∧
    |10 - blendSequence 44| ≤ 1/10 ∧
    blendSequence (44 + 7) = blendSequence 44 :=
  ⟨convergence_from_zero_to_ten.2.2.2.1 0 (by with_unfolding_all decide),
   by with_unfolding_all decide,
   convergence_from_zero_to_ten.2.2.2.2 44 7 (by with_unfolding_all decide)⟩

/-- The entry log line never coincides with the exit log line. -/
theorem enteredLog_ne_leftLog (n : String) :
    "Camera entered post processing volume: " ++ n ≠
      "Camera left post processing volume" := by
  intro h
  have hlen := congrArg String.length h
  rw [String.length_append] at hlen
  rw [show ("Camera entered post processing volume: ").length = 39 from rfl,
    show ("Camera left post processing volume").length = 34 from rfl] at hlen
  omega

/-- C10: on an active tick the baseline reset fires exactly when the computed
active volume is none and the stored one was not none; in particular a direct
pass from volume A into a different volume B sets B's mapped targets and emits
the entry line, never the reset. -/
theorem reset_iff_exit_transition (cfg : ControllerConfig) (s : ControllerState)
    (p : Vec3) (e u : ℚ) :
    ((loop cfg true p s e u).log = ["Camera left post processing volume"] ↔
      (findActiveVolume cfg.postProcessingVolumes p = none ∧
        s.lastActiveProcessingVolume ≠ none)) ∧
    (∀ A B, s.lastActiveProcessingVolume = some A →
      findActiveVolume cfg.postProcessingVolumes p = some B → A ≠ B →
      (loop cfg true p s e u).log =
        ["Camera entered post processing volume: " ++ B.name] ∧
      ∀ effect, lookupEffect cfg.postProcessingEffectMapping B.name = some effect →
        (loop cfg true p s e u).state.exposureTarget = effect.exposure ∧
        (loop cfg true p s e u).state.saturationTarget = effect.saturation) := by
  constructor
  · cases hcand : findActiveVolume cfg.postProcessingVolumes p with
    | none =>
        by_cases hl : s.lastActiveProcessingVolume = none
        · simp [loop, hcand, hl]
        · simp [loop, hcand, hl, resetPostProcessingEffects]
    | some v =>
        by_cases hl : s.lastActiveProcessingVolume = some v
        · simp [loop, hcand, hl]
        · cases he : lookupEffect cfg.postProcessingEffectMapping v.name <;>
            simp [loop, hcand, hl, setPostProcessingEffects, he, enteredLog_ne_leftLog]
  · intro A B hA hB hAB
    have hne : s.lastActiveProcessingVolume ≠ some B := by
      rw [hA]
      simp
      intro hcontr
      exact hAB hcontr
    refine ⟨?_, ?_⟩
    · cases he : lookupEffect cfg.postProcessingEffectMapping B.name <;>
        simp [loop, hB, hne, setPostProcessingEffects, he]
    · intro effect heff
      simp [loop, hB, hne, setPostProcessingEffects, heff]

/-- Closed instance of `reset_iff_exit_transition`: passing straight from the
demo volume "A" into "B" emits the entry line for "B" (and no reset). -/
theorem reset_iff_exit_transition_witness :
    (loop demoConfig true insideB ⟨2, 3, some volA⟩ 1 1).log =
      ["Camera entered post processing volume: " ++ volB.name] :=
  ((reset_iff_exit_transition demoConfig ⟨2, 3, some volA⟩ insideB 1 1).2 volA volB rfl
    (by with_unfolding_all decide) (by with_unfolding_all decide)).1

/-- A tick whose computed active volume equals the stored one fires no
handler: the state is unchanged and nothing is logged. -/
theorem loop_no_transition (cfg : ControllerConfig) (p : Vec3) (s : ControllerState)
    (e u : ℚ)
    (h : findActiveVolume cfg.postProcessingVolumes p = s.lastActiveProcessingVolume) :
    loop cfg true p s e u =
      ⟨s, smoothParameterStep s.exposureTarget e, smoothParameterStep s.saturationTarget u,
        []⟩ := by
  simp [loop, h, smoothCameraParameterUpdate]

/-- A tick that enters volume `v` stores `v` and logs the entry line. -/
theorem loop_transition_enter (cfg : ControllerConfig) (p : Vec3) (s : ControllerState)
    (e u : ℚ) (v : PostProcessingVolume)
    (hc : findActiveVolume cfg.postProcessingVolumes p = some v)
    (hne : s.lastActiveProcessingVolume ≠ some v) :
    (loop cfg true p s e u).state.lastActiveProcessingVolume = some v ∧
    (loop cfg true p s e u).log = transitionLog (some v) := by
  cases he : lookupEffect cfg.postProcessingEffectMapping v.name <;>
    simp [loop, hc, hne, setPostProcessingEffects, he, transitionLog]

/-- A tick that exits to no volume stores none and logs the exit line. -/
theorem loop_transition_exit (cfg : ControllerConfig) (p : Vec3) (s : ControllerState)
    (e u : ℚ)
    (hc : findActiveVolume cfg.postProcessingVolumes p = none)
    (hne : s.lastActiveProcessingVolume ≠ none) :
    (loop cfg true p s e u).state.lastActiveProcessingVolume = none ∧
    (loop cfg true p s e u).log = transitionLog none := by
  simp [loop, hc, hne, resetPostProcessingEffects, transitionLog]

/-- Ticks whose computed active volume is the stored one log nothing: the run
continues from some state still storing that volume. -/
theorem runLoop_const_chain (cfg : ControllerConfig) (c : Option PostProcessingVolume)
    (o rest : List Vec3)
    (h : ∀ p ∈ o, findActiveVolume cfg.postProcessingVolumes p = c) :
    ∀ (s : ControllerState) (e u : ℚ), s.lastActiveProcessingVolume = c →
      ∃ s2 e2 u2, s2.lastActiveProcessingVolume = c ∧
        (runLoop cfg s e u (o ++ rest)).log = (runLoop cfg s2 e2 u2 rest).log := by
  induction o with
  | nil => exact fun s e u hs => ⟨s, e, u, hs, rfl⟩
  | cons p o ih =>
      intro s e u hs
      have hp : findActiveVolume cfg.postProcessingVolumes p = c := h p (by simp)
      have hstep := loop_no_transition cfg p s e u (by rw [hp, hs])
      obtain ⟨s2, e2, u2, h2, heq⟩ :=
        ih (fun q hq => h q (List.mem_cons_of_mem p hq)) s
          (smoothParameterStep s.exposureTarget e)
          (smoothParameterStep s.saturationTarget u) hs
      refine ⟨s2, e2, u2, h2, ?_⟩
      rw [List.cons_append]
      simp only [runLoop, hstep]
      simpa using heq

/-- A nonempty block of ticks sharing a newly computed active volume fires the
transition once, at its first tick, then logs nothing further. -/
theorem runLoop_transition_chain (cfg : ControllerConfig) (c : Option PostProcessingVolume)
    (seg rest : List Vec3)
    (hseg : ∀ p ∈ seg, findActiveVolume cfg.postProcessingVolumes p = c)
    (hne : seg ≠ []) :
    ∀ (s : ControllerState) (e u : ℚ), s.lastActiveProcessingVolume ≠ c →
      ∃ s2 e2 u2, s2.lastActiveProcessingVolume = c ∧
        (runLoop cfg s e u (seg ++ rest)).log =
          transitionLog c ++ (runLoop cfg s2 e2 u2 rest).log := by
  obtain ⟨p, seg2, rfl⟩ := List.exists_cons_of_ne_nil hne
  intro s e u hs
  have hp : findActiveVolume cfg.postProcessingVolumes p = c := hseg p (by simp)
  have hfire : (loop cfg true p s e u).state.lastActiveProcessingVolume = c ∧
      (loop cfg true p s e u).log = transitionLog c := by
    cases c with
    | none => exact loop_transition_exit cfg p s e u hp hs
    | some v => exact loop_transition_enter cfg p s e u v hp hs
  obtain ⟨s2, e2, u2, h2, heq⟩ :=
    runLoop_const_chain cfg c seg2 rest (fun q hq => hseg q (by simp [hq]))
      (loop cfg true p s e u).state (loop cfg true p s e u).exposure
      (loop cfg true p s e u).saturation hfire.1
  refine ⟨s2, e2, u2, h2, ?_⟩
  rw [List.cons_append]
  simp only [runLoop]
  rw [hfire.2, heq]

/-- Variant of `runLoop_transition_chain` for the final block of a run. -/
theorem runLoop_transition_whole (cfg : ControllerConfig) (c : Option PostProcessingVolume)
    (seg : List Vec3)
    (hseg : ∀ p ∈ seg, findActiveVolume cfg.postProcessingVolumes p = c)
    (hne : seg ≠ []) (s : ControllerState) (e u : ℚ)
    (hs : s.lastActiveProcessingVolume ≠ c) :
    (runLoop cfg s e u seg).log = transitionLog c := by
  obtain ⟨s2, e2, u2, h2, heq⟩ := runLoop_transition_chain cfg c seg [] hseg hne s e u hs
  rw [List.append_nil] at heq
  rw [heq]
  simp [runLoop]

/-- The containment scan over a two-volume registry, written as nested
conditionals: the second registered volume wins when both contain the point. -/
theorem findActiveVolume_pair (A B : PostProcessingVolume) (p : Vec3) :
    findActiveVolume [A, B] p =
      if isCameraInsideBoundingBox p B.boundingBox then some B
      else if isCameraInsideBoundingBox p A.boundingBox then some A
      else none := by
  by_cases hA : isCameraInsideBoundingBox p A.boundingBox <;>
    by_cases hB : isCameraInsideBoundingBox p B.boundingBox <;>
      simp [findActiveVolume, hA, hB]

/-- C9: for two non-overlapping registered volumes A and B and a camera path
outside, inside A, outside, inside B, outside, the controller fires exactly
one enter and one exit per volume, in path order, and nothing else: the whole
run logs exactly enter-A, exit, enter-B, exit. -/
theorem one_enter_exit_pair_per_volume (cfg : ControllerConfig)
    (A B : PostProcessingVolume) (hvols : cfg.postProcessingVolumes = [A, B])
    (o1 a o2 b o3 : List Vec3)
    (ho1 : ∀ p ∈ o1, isCameraInsideBoundingBox p A.boundingBox = false ∧
      isCameraInsideBoundingBox p B.boundingBox = false)
    (ha : ∀ p ∈ a, isCameraInsideBoundingBox p A.boundingBox = true ∧
      isCameraInsideBoundingBox p B.boundingBox = false)
    (ho2 : ∀ p ∈ o2, isCameraInsideBoundingBox p A.boundingBox = false ∧
      isCameraInsideBoundingBox p B.boundingBox = false)
    (hb : ∀ p ∈ b, isCameraInsideBoundingBox p B.boundingBox = true ∧
      isCameraInsideBoundingBox p A.boundingBox = false)
    (ho3 : ∀ p ∈ o3, isCameraInsideBoundingBox p A.boundingBox = false ∧
      isCameraInsideBoundingBox p B.boundingBox = false)
    (hane : a ≠ []) (ho2ne : o2 ≠ []) (hbne : b ≠ []) (ho3ne : o3 ≠ [])
    (s : ControllerState) (e u : ℚ) (hs : s.lastActiveProcessingVolume = none) :
    (runLoop cfg s e u (o1 ++ (a ++ (o2 ++ (b ++ o3))))).log =
      ["Camera entered post processing volume: " ++ A.name,
       "Camera left post processing volume",
       "Camera entered post processing volume: " ++ B.name,
       "Camera left post processing volume"] := by
  have co1 : ∀ p ∈ o1, findActiveVolume cfg.postProcessingVolumes p = none := by
    intro p hp
    rw [hvols, findActiveVolume_pair]
    simp [(ho1 p hp).1, (ho1 p hp).2]
  have ca : ∀ p ∈ a, findActiveVolume cfg.postProcessingVolumes p = some A := by
    intro p hp
    rw [hvols, findActiveVolume_pair]
    simp [(ha p hp).1, (ha p hp).2]
  have co2 : ∀ p ∈ o2, findActiveVolume cfg.postProcessingVolumes p = none := by
    intro p hp
    rw [hvols, findActiveVolume_pair]
    simp [(ho2 p hp).1, (ho2 p hp).2]
  have cb : ∀ p ∈ b, findActiveVolume cfg.postProcessingVolumes p = some B := by
    intro p hp
    rw [hvols, findActiveVolume_pair]
    simp [(hb p hp).1]
  have co3 : ∀ p ∈ o3, findActiveVolume cfg.postProcessingVolumes p = none := by
    intro p hp
    rw [hvols, findActiveVolume_pair]
    simp [(ho3 p hp).1, (ho3 p hp).2]
  obtain ⟨s1, e1, u1, h1, heq1⟩ :=
    runLoop_const_chain cfg none o1 (a ++ (o2 ++ (b ++ o3))) co1 s e u hs
  rw [heq1]
  obtain ⟨s2, e2, u2, h2, heq2⟩ :=
    runLoop_transition_chain cfg (some A) a (o2 ++ (b ++ o3)) ca hane s1 e1 u1
      (by simp [h1])
  rw [heq2]
  obtain ⟨s3, e3, u3, h3, heq3⟩ :=
    runLoop_transition_chain cfg none o2 (b ++ o3) co2 ho2ne s2 e2 u2 (by simp [h2])
  rw [heq3]
  obtain ⟨s4, e4, u4, h4, heq4⟩ :=
    runLoop_transition_chain cfg (some B) b o3 cb hbne s3 e3 u3 (by simp [h3])
  rw [heq4]
  rw [runLoop_transition_whole cfg none o3 co3 ho3ne s4 e4 u4 (by simp [h4])]
  simp [transitionLog]

/-- Closed instance of `one_enter_exit_pair_per_volume`: a five-tick walk
through the demo volumes logs exactly the four transition lines in order. -/
theorem one_enter_exit_pair_per_volume_witness :
    (runLoop demoConfig (initialState demoConfig) 1 1
      ([outsideAll] ++ ([insideA] ++ ([outsideAll] ++ ([insideB] ++ [outsideAll]))))).log =
      ["Camera entered post processing volume: " ++ volA.name,
       "Camera left post processing volume",
       "Camera entered post processing volume: " ++ volB.name,
       "Camera left post processing volume"] :=
  one_enter_exit_pair_per_volume demoConfig volA volB rfl
    [outsideAll] [insideA] [outsideAll] [insideB] [outsideAll]
    (by with_unfolding_all decide) (by with_unfolding_all decide)
    (by with_unfolding_all decide) (by with_unfolding_all decide)
    (by with_unfolding_all decide)
    (by with_unfolding_all decide) (by with_unfolding_all decide)
    (by with_unfolding_all decide) (by with_unfolding_all decide)
    (initialState demoConfig) 1 1 rfl
